import Mathlib

/-!
Shallow embedding of `gnfnt.py` (Get-Nerd-Fonts), a command-line Nerd-Font
installer.  The program is sequential Python operating on: a JSON registry
file of feed URLs (`fontRepos.json`), HTTP responses from feed URLs, ZIP
archives, and a platform font directory.

Modelling conventions used throughout:
  * Python strings are Lean `String`s; where character-level reasoning is
    needed we pass through `String.data` (a `List Char`).
  * JSON values (`json.load`, `response.json()`) are the inductive `Json`.
  * Python exceptions are the inductive `PyErr`; a function that can raise
    an exception that its callers do not catch returns an `Except PyErr _`
    paired with the state at the moment of the raise (Python state survives
    a propagating exception).
  * The filesystem is the `World` structure: the registry (the list that
    `load_repositories` yields, i.e. the parsed content of the well-formed
    registry file), the font directory as an association list from file
    name to file content, and whether the temporary directory
    `~/.gnfnt_temp` currently exists.
  * `requests.get` on a feed URL is a function `String → Except Unit Resp`
    (`.error` = `requests.exceptions.RequestException`); the font-archive
    download of `download_and_install_font` is a function `String → DlResp`
    whose `zipEntries` field is the result of extracting the downloaded
    bytes (`.error` = `zipfile.BadZipFile`).
  * Terminal output, progress bars and `refresh_font_cache` (an OS
    shell-out) have no filesystem effect and are not modelled beyond the
    outcome values that identify which message a code path prints.
-/

/-- Python exceptions that the modelled code can raise past a caller. -/
inductive PyErr
  | badZipFile
  | attributeError
  | keyError
  | typeError
deriving DecidableEq, Repr

/-- A parsed JSON value as produced by Python's `json` module.  An object is
an association list of its key/value pairs; keys of a dict parsed from JSON
are unique, and `lookupJson` returns the first match. -/
inductive Json
  | null
  | bool (b : Bool)
  | num (n : Int)
  | str (s : String)
  | arr (xs : List Json)
  | obj (fields : List (String × Json))

/-- Lookup of a key in a JSON object's field list, Python `dict.__getitem__`
shape (`none` = key absent). -/
def lookupJson : List (String × Json) → String → Option Json
  | [], _ => none
  | (k, v) :: rest, key => if k == key then some v else lookupJson rest key

/-- Python `str.replace(pat, rep)` on character lists: replace every
non-overlapping occurrence of `pat`, scanning left to right.  (Python's
behaviour for an empty pattern, which inserts `rep` at every position, is
not modelled; every pattern used by the program is `".zip"`.) -/
def pyReplaceF (pat rep : List Char) : Nat → List Char → List Char
  | _, [] => []
  | 0, l => l
  | fuel + 1, c :: rest =>
    if !pat.isEmpty && pat.isPrefixOf (c :: rest) then
      rep ++ pyReplaceF pat rep fuel (rest.drop (pat.length - 1))
    else
      c :: pyReplaceF pat rep fuel rest

/-- `pyReplaceF` with enough fuel for its input (each step of the scan
consumes at least one character, so `l.length` steps always suffice). -/
def pyReplace (pat rep l : List Char) : List Char :=
  pyReplaceF pat rep l.length l

/-- Python `str.replace` on `String`s (gnfnt.py line 94 uses
`asset["name"].replace(".zip", "")`). -/
def pyReplaceS (s pat rep : String) : String :=
  String.mk (pyReplace pat.data rep.data s.data)

/-- Spec-side suffix stripping: remove one trailing occurrence of `suf`
(`".zip"`) from the end of `s`, leaving the rest of the string untouched.
This is the operation the specification's words "with that suffix stripped"
describe; it is compared against the source's `pyReplaceS`. -/
def stripSuffixOnce (s suf : String) : String :=
  String.mk (s.data.take (s.data.length - suf.data.length))

/-- Python `str.lower` (ASCII case folding, which covers every string the
program lowercases: file suffixes and the `y`/`n` confirmation). -/
def pyLower (s : String) : String :=
  String.mk (s.data.map Char.toLower)

/-- Python `str.strip()`: remove leading and trailing whitespace. -/
def pyStrip (s : String) : String :=
  String.mk
    (((s.data.dropWhile Char.isWhitespace).reverse.dropWhile
      Char.isWhitespace).reverse)

/-- Python `str.endswith`. -/
def pyEndsWith (s suf : String) : Bool :=
  suf.data.isSuffixOf s.data

/-- Python `PurePath.name`: the part of a path after the last `/`.
(Trailing path separators, which pathlib normalises away, are not modelled;
no input of interest has one.) -/
def pyName (p : String) : String :=
  String.mk ((p.data.reverse.takeWhile (fun c => c ≠ '/')).reverse)

/-- Python `PurePath.suffix`: `name[i:]` for the last index `i` of `'.'` in
the base name when `0 < i < len(name) - 1`, otherwise the empty string. -/
def pySuffix (p : String) : String :=
  let name := (pyName p).data
  match name.reverse.findIdx? (fun c => c == '.') with
  | none => ""
  | some j =>
    let i := name.length - 1 - j
    if 0 < i ∧ i < name.length - 1 then String.mk (name.drop i) else ""

section Glob

/-- One token of an `fnmatch`/`pathlib.Path.glob` pattern: a literal
character, the `*` wildcard, the `?` wildcard, or a `[...]` character
class.  (Class ranges `a-z` and negation `[!...]` are not modelled; the
only pattern the program builds is `f"{font_name}*.[to]tf"`.) -/
inductive GlobTok
  | lit (c : Char)
  | star
  | any
  | cls (cs : List Char)
deriving DecidableEq, Repr

/-- Scan the characters of a `[...]` class up to the closing `]`; returns
the class members and the remainder of the pattern after the `]`. -/
def parseCls : List Char → List Char × List Char
  | [] => ([], [])
  | c :: rest =>
    if c = ']' then ([], rest)
    else
      let (cs, rem) := parseCls rest
      (c :: cs, rem)

theorem parseCls_rem_length (l : List Char) : (parseCls l).2.length ≤ l.length := by
  induction l with
  | nil => simp [parseCls]
  | cons c rest ih =>
    simp only [parseCls]
    split
    · simp
    · simpa using Nat.le_succ_of_le ih

/-- Tokenise a glob pattern string (the `*`, `?` and `[...]` forms that
`fnmatch.translate` recognises, restricted as documented on `GlobTok`). -/
def parseGlobF : Nat → List Char → List GlobTok
  | _, [] => []
  | 0, _ => []
  | fuel + 1, c :: rest =>
    if c = '*' then .star :: parseGlobF fuel rest
    else if c = '?' then .any :: parseGlobF fuel rest
    else if c = '[' then
      .cls (parseCls rest).1 :: parseGlobF fuel (parseCls rest).2
    else .lit c :: parseGlobF fuel rest

/-- `parseGlobF` with enough fuel for its input (each token consumes at
least one character of the pattern, so `l.length` steps always suffice). -/
def parseGlob (l : List Char) : List GlobTok :=
  parseGlobF l.length l

/-- Matching of a tokenised glob pattern against a file name, the
semantics of `fnmatch.fnmatchcase` (and of `Path.glob` on a flat,
separator-free pattern): `*` matches any run of characters (the `.*` of
`fnmatch.translate`, tried here as: match the rest of the pattern against
some suffix of the input), `?` any single character, `[cs]` any single
character in `cs`, a literal only itself. -/
def globMatch : List GlobTok → List Char → Bool
  | [], s => s.isEmpty
  | .lit c :: p, s =>
    match s with
    | [] => false
    | d :: s' => c == d && globMatch p s'
  | .any :: p, s =>
    match s with
    | [] => false
    | _ :: s' => globMatch p s'
  | .cls cs :: p, s =>
    match s with
    | [] => false
    | d :: s' => cs.contains d && globMatch p s'
  | .star :: p, s => s.tails.any (fun t => globMatch p t)

/-- `is_font_installed` (gnfnt.py lines 75-78): true when some file of the
font directory matches the glob pattern `f"{font_name}*.[to]tf"`.  `files`
is the list of file names in the font directory; a missing or empty
directory is the empty list (`Path.glob` yields nothing for a directory
that does not exist). -/
def isFontInstalled (fontName : String) (files : List String) : Bool :=
  files.any (fun f => globMatch (parseGlob (fontName ++ "*.[to]tf").data) f.data)

end Glob

section Registry

/-- The single built-in default feed URL (gnfnt.py lines 19 and 27). -/
def defaultRepoUrl : String :=
  "https://api.github.com/repos/ryanoasis/nerd-fonts/releases/latest"

/-- The state of the registry file `~/.gnfnt/fontRepos.json`: absent,
present with content that `json.load` rejects (`json.JSONDecodeError`), or
present and parsed to a JSON value. -/
inductive RegistryFile
  | absent
  | malformed
  | parsed (v : Json)

/-- `load_repositories` (gnfnt.py lines 16-27) at file level.  Returns the
Python value the function yields (the default single-URL list when the
file is absent or corrupt, otherwise `data.get("repositories", [])`)
together with the registry file afterwards; the source performs no write
on any path, so the file state is passed through unchanged.  A parsed
value that is not a JSON object has no `.get` method, so the call raises
`AttributeError`, which the source does not catch. -/
def loadRepositoriesFile : RegistryFile → Except PyErr Json × RegistryFile
  | .absent => (.ok (Json.arr [Json.str defaultRepoUrl]), .absent)
  | .malformed => (.ok (Json.arr [Json.str defaultRepoUrl]), .malformed)
  | .parsed v =>
    (match v with
     | .obj fields => .ok ((lookupJson fields "repositories").getD (Json.arr []))
     | _ => .error .attributeError,
     .parsed v)

/-- `add_repository` (gnfnt.py lines 35-43) on the loaded repository list:
a no-op (and no write, second component `false`) when the URL is already
present, otherwise append and persist (`true`). -/
def addRepository (url : String) (repositories : List String) :
    List String × Bool :=
  if url ∈ repositories then (repositories, false)
  else (repositories ++ [url], true)

/-- `remove_repository` (gnfnt.py lines 45-53) on the loaded repository
list: a no-op (no write) when the URL is absent, otherwise remove the
first occurrence (Python `list.remove`) and persist. -/
def removeRepository (url : String) (repositories : List String) :
    List String × Bool :=
  if url ∈ repositories then (repositories.erase url, true)
  else (repositories, false)

end Registry

section Resolver

/-- An HTTP response as seen by `get_all_nerd_fonts`: status code, body
text, and the result of `response.json()` (`.error` =
`json.JSONDecodeError` on a body that is not valid JSON). -/
structure Resp where
  status_code : Nat
  text : String
  json : Except Unit Json

/-- True when `requests.get` itself raised
`requests.exceptions.RequestException` (connection error or timeout). -/
def isNetErr : Except Unit Resp → Bool
  | .error _ => true
  | .ok _ => false

/-- Python iteration over a JSON value (`for asset in assets`): a list
yields its elements, a dict its keys, a string its one-character strings;
other values are not iterable and raise `TypeError`. -/
def pyIter : Json → Except PyErr (List Json)
  | .arr xs => .ok xs
  | .obj fields => .ok (fields.map (fun kv => Json.str kv.1))
  | .str s => .ok (s.data.map (fun c => Json.str (String.mk [c])))
  | _ => .error .typeError

/-- Python subscript `asset["name"]`: key lookup on a dict (`KeyError`
when absent), `TypeError` on values that do not support string keys. -/
def pySubscript : Json → String → Except PyErr Json
  | .obj fields, key =>
    match lookupJson fields key with
    | some v => .ok v
    | none => .error .keyError
  | _, _ => .error .typeError

/-- The body of the list comprehension of gnfnt.py line 94, element by
element: evaluate `asset["name"]`, require a string for `.endswith`
(`AttributeError` otherwise), keep names ending in `".zip"` with
`.replace(".zip", "")` applied, preserving input order. -/
def namesLoop : List Json → Except PyErr (List String)
  | [] => .ok []
  | a :: rest =>
    match pySubscript a "name" with
    | .error e => .error e
    | .ok (.str s) =>
      (match namesLoop rest with
       | .error e => .error e
       | .ok tail =>
         .ok (if pyEndsWith s ".zip" then pyReplaceS s ".zip" "" :: tail
              else tail))
    | .ok _ => .error .attributeError

/-- Lines 93-94 of gnfnt.py: `response.json().get("assets", [])` followed
by the comprehension.  A non-object JSON value has no `.get`
(`AttributeError`); a missing `"assets"` key defaults to the empty list. -/
def fontsFromJson : Json → Except PyErr (List String)
  | .obj fields =>
    match pyIter ((lookupJson fields "assets").getD (Json.arr [])) with
    | .error e => .error e
    | .ok items => namesLoop items
  | _ => .error .attributeError

/-- One iteration of the feed loop of `get_all_nerd_fonts` (gnfnt.py lines
86-105): returns the fonts contributed by the feed and whether the feed
was marked invalid.  A `RequestException` and a `json.JSONDecodeError`
are caught and mark the feed invalid, as does a non-200 status or an
empty (whitespace-only) body; `AttributeError`/`KeyError`/`TypeError`
from the comprehension are caught by neither `except` clause and
propagate. -/
def fetchRepo (net : String → Except Unit Resp) (repo : String) :
    Except PyErr (List String × Bool) :=
  match net repo with
  | .error _ => .ok ([], true)
  | .ok r =>
    if r.status_code == 200 && !(pyStrip r.text == "") then
      match r.json with
      | .error _ => .ok ([], true)
      | .ok v =>
        match fontsFromJson v with
        | .error e => .error e
        | .ok fonts => .ok (fonts, false)
    else .ok ([], true)

/-- The feed loop of `get_all_nerd_fonts` over a list of feed URLs:
accumulated fonts in feed order, invalid feeds in feed order, and the
number of `requests.get` calls made.  An uncaught exception from a feed
aborts the loop there (later feeds are not contacted). -/
def resolveLoop (net : String → Except Unit Resp) :
    List String → Except PyErr (List String × List String) × Nat
  | [] => (.ok ([], []), 0)
  | u :: rest =>
    match fetchRepo net u with
    | .error e => (.error e, 1)
    | .ok (fonts, bad) =>
      match resolveLoop net rest with
      | (.error e, n) => (.error e, n + 1)
      | (.ok (fonts', invalid), n) =>
        (.ok (fonts ++ fonts', (if bad then [u] else []) ++ invalid), n + 1)

end Resolver

section Installers

/-- The filesystem state the program manipulates: the loaded registry list
(the content of a well-formed `fontRepos.json`), the font directory as an
association list from file name to file content (first binding wins, as
each name occurs at most once in a real directory), and whether the
temporary directory `~/.gnfnt_temp` exists. -/
structure World where
  registry : List String
  fonts : List (String × String)
  tempExists : Bool
deriving DecidableEq, Repr

/-- `get_all_nerd_fonts` (gnfnt.py lines 80-113): run the feed loop over
the loaded registry; if it completes, remove each invalid feed from the
registry via `remove_repository` (which reloads and rewrites the file, so
the removals fold over the registry state) and return
`list(set(all_fonts))`, modelled as `List.dedup` since the order Python
chooses for a set is unspecified and all theorems below use only set
semantics of the result.  If a feed raised past the `except` clauses the
exception propagates before any removal, leaving the registry as it was.
The final component counts `requests.get` calls. -/
def getAllNerdFonts (net : String → Except Unit Resp) (w : World) :
    Except PyErr (List String) × World × Nat :=
  match resolveLoop net w.registry with
  | (.error e, n) => (.error e, w, n)
  | (.ok (allFonts, invalidRepos), n) =>
    let registry' :=
      invalidRepos.foldl (fun reg u => (removeRepository u reg).1) w.registry
    (.ok allFonts.dedup, { w with registry := registry' }, n)

/-- The result of `requests.get` on a font-archive download URL
(gnfnt.py line 149): the HTTP status and, for the downloaded bytes, the
result of opening them as a ZIP archive — `.error` = `zipfile.BadZipFile`,
`.ok entries` = the extracted entries as (file name, content) pairs.
Archive entries are modelled as flat files; the downloaded
`<name>.zip` itself also sits in the temporary directory during the
iteration but its `.zip` suffix never passes the font-extension filter,
so it is omitted from the entry list. -/
structure DlResp where
  status_code : Nat
  zipEntries : Except Unit (List (String × String))

/-- Outcome of `download_and_install_font`, identified by the final
message the source prints on that path. -/
inductive DlOutcome
  | alreadyInstalled
  | installedMsg
  | downloadFailed
deriving DecidableEq, Repr

/-- Content of the file of the given name in a modelled directory
(association-list lookup, first binding wins); `Option.isSome` of this is
`Path.exists` of the destination. -/
def lookupFile : List (String × String) → String → Option String
  | [], _ => none
  | (k, v) :: rest, key => if k == key then some v else lookupFile rest key

/-- The extracted-entry iteration shared verbatim by gnfnt.py lines
174-182 (network install) and lines 323-332 (local ZIP install): for each
entry whose `Path.suffix` is `.ttf` or `.otf` (case-sensitive in both
copies), skip it when a file of that name already exists in the font
directory, otherwise move it there; returns the new font directory and
the `installed` flag (true when at least one file was moved). -/
def moveFontEntries : List (String × String) → List (String × String) →
    List (String × String) × Bool
  | [], fonts => (fonts, false)
  | (n, c) :: rest, fonts =>
    if pySuffix n == ".ttf" || pySuffix n == ".otf" then
      if (lookupFile fonts n).isSome then
        moveFontEntries rest fonts
      else
        let (fonts', _) := moveFontEntries rest (fonts ++ [(n, c)])
        (fonts', true)
    else
      moveFontEntries rest fonts

end Installers

/-- `download_and_install_font` (gnfnt.py lines 133-192).  Returns the
outcome (or the propagating exception), the world afterwards, and the
number of `requests.get` calls (0 on the already-installed short-circuit,
1 otherwise).  Faithful control flow: the temporary directory is created
before the download; on HTTP 200 the archive is extracted (a corrupt
archive raises `zipfile.BadZipFile`, which nothing catches, so the
temporary directory survives), the entry loop runs, then
`zip_path.unlink()` and `shutil.rmtree(temp_dir)` remove the temporary
directory and the closing success message is printed — the `installed`
flag computed by the loop is never consulted.  On a non-200 status the
`else` branch only prints the failure message: no cleanup runs and the
temporary directory is left in place. -/
def downloadAndInstallFont (dl : String → DlResp) (fontName : String)
    (w : World) : Except PyErr DlOutcome × World × Nat :=
  if isFontInstalled fontName (w.fonts.map Prod.fst) then
    (.ok .alreadyInstalled, w, 0)
  else
    let w1 : World := { w with tempExists := true }
    let r := dl fontName
    if r.status_code == 200 then
      match r.zipEntries with
      | .error _ => (.error .badZipFile, w1, 1)
      | .ok entries =>
        let (fonts', _) := moveFontEntries entries w1.fonts
        (.ok .installedMsg, { w1 with fonts := fonts', tempExists := false }, 1)
    else
      (.ok .downloadFailed, w1, 1)

/-- What the local filesystem holds at a user-supplied path: `content` are
the file's bytes (used when the path is copied as an individual font
file), `zipEntries` the result of opening those bytes as a ZIP archive
(consulted only when the path has a `.zip` suffix). -/
structure LocalFile where
  content : String
  zipEntries : Except Unit (List (String × String))

/-- Per-path outcome of `install_font_file_or_zip`, identified by the
message the source prints. -/
inductive LocalOutcome
  | notFound (p : String)
  | installedFile (n : String)
  | skippedExists (n : String)
  | zipInstalled
  | zipNoValidFiles
  | badZip
  | unsupported (n : String)
deriving DecidableEq, Repr

/-- One iteration of the path loop of `install_font_file_or_zip`
(gnfnt.py lines 298-343): missing paths are reported and skipped;
`.ttf`/`.otf` paths (suffix lowercased) are copied unless the destination
exists; `.zip` paths are extracted into the temporary directory
(`zipfile.BadZipFile` is caught here), the shared entry loop runs, a
missing-valid-files message is printed when nothing was moved, and
`shutil.rmtree` removes the temporary directory on both the good and the
bad-archive path; other suffixes are unsupported. -/
def installOnePath (fs : String → Option LocalFile) (p : String) (w : World) :
    World × List LocalOutcome :=
  match fs p with
  | none => (w, [.notFound p])
  | some lf =>
    let sfx := pyLower (pySuffix p)
    if sfx == ".ttf" || sfx == ".otf" then
      let n := pyName p
      if (lookupFile w.fonts n).isSome then (w, [.skippedExists n])
      else ({ w with fonts := w.fonts ++ [(n, lf.content)] }, [.installedFile n])
    else if sfx == ".zip" then
      let w1 : World := { w with tempExists := true }
      match lf.zipEntries with
      | .error _ => ({ w1 with tempExists := false }, [.badZip])
      | .ok entries =>
        let (fonts', inst) := moveFontEntries entries w1.fonts
        ({ w1 with fonts := fonts', tempExists := false },
         if inst then [.zipInstalled] else [.zipNoValidFiles])
    else
      (w, [.unsupported (pyName p)])

/-- `install_font_file_or_zip` (gnfnt.py lines 293-345): fold the per-path
step over the argument list, accumulating the printed outcomes in order;
`refresh_font_cache` at the end touches no modelled state. -/
def installFontFileOrZip (fs : String → Option LocalFile)
    (paths : List String) (w : World) : World × List LocalOutcome :=
  paths.foldl
    (fun acc p =>
      let (w', os) := installOnePath fs p acc.1
      (w', acc.2 ++ os))
    (w, [])

section Dispatcher

/-- The observable result of one `main()` run (gnfnt.py lines 347-402):
the process exit code (1 for the missing-arguments usage path and for a
run killed by an uncaught exception, 0 otherwise), the world afterwards,
the number of `requests.get` calls made, the font names passed to
`download_and_install_font` in order, whether the usage banner was
printed, and the uncaught exception if one terminated the run. -/
structure MainOut where
  exit : Nat
  w : World
  netCalls : Nat
  downloads : List String
  usageShown : Bool
  raised : Option PyErr
deriving DecidableEq, Repr

/-- The install loop of `main` (gnfnt.py lines 397-399): call
`download_and_install_font` for each font in order; an uncaught exception
aborts the loop.  Returns the world, total `requests.get` calls, the
fonts for which the installer was invoked, and the exception if any. -/
def installLoop (dl : String → DlResp) :
    List String → World → World × Nat × List String × Option PyErr
  | [], w => (w, 0, [], none)
  | f :: rest, w =>
    match downloadAndInstallFont dl f w with
    | (.error e, w', n) => (w', n, [f], some e)
    | (.ok _, w', n) =>
      let (w2, n2, ds, r) := installLoop dl rest w'
      (w2, n + n2, f :: ds, r)

/-- `main` (gnfnt.py lines 347-402).  `argv` is `sys.argv` including the
program name; `stdin` is the line `input()` returns at the bulk-install
confirmation; `net`, `dl` and `fs` are the feed network, the download
network and the local filesystem.  The branch structure follows the
source's if-chain exactly; in particular `-a`/`-r`/`-f` take their branch
only when a further argument exists (`len(sys.argv) > 2`), and otherwise
fall through to the name-install path at the bottom. -/
def mainModel (argv : List String) (stdin : String)
    (net : String → Except Unit Resp) (dl : String → DlResp)
    (fs : String → Option LocalFile) (w : World) : MainOut :=
  if argv.length < 2 then ⟨1, w, 0, [], true, none⟩
  else
    let arg := argv.getD 1 ""
    if arg == "-h" || arg == "--help" then ⟨0, w, 0, [], true, none⟩
    else if arg == "-v" || arg == "--version" then ⟨0, w, 0, [], false, none⟩
    else if arg == "-l" || arg == "--list" then
      match getAllNerdFonts net w with
      | (.error e, w', n) => ⟨1, w', n, [], false, some e⟩
      | (.ok _, w', n) => ⟨0, w', n, [], false, none⟩
    else if arg == "--repos" then ⟨0, w, 0, [], false, none⟩
    else if arg == "-a" && decide (argv.length > 2) then
      ⟨0, { w with registry := (addRepository (argv.getD 2 "") w.registry).1 },
       0, [], false, none⟩
    else if arg == "-r" && decide (argv.length > 2) then
      ⟨0, { w with registry := (removeRepository (argv.getD 2 "") w.registry).1 },
       0, [], false, none⟩
    else if arg == "-f" && decide (argv.length > 2) then
      ⟨0, (installFontFileOrZip fs (argv.drop 2) w).1, 0, [], false, none⟩
    else if arg == "*" then
      if !(pyLower stdin == "y") then ⟨0, w, 0, [], false, none⟩
      else
        match getAllNerdFonts net w with
        | (.error e, w', n) => ⟨1, w', n, [], false, some e⟩
        | (.ok allFonts, w', n) =>
          let fonts := allFonts.filter
            (fun f => !isFontInstalled f (w'.fonts.map Prod.fst))
          if fonts.isEmpty then ⟨0, w', n, [], false, none⟩
          else
            let (w2, n2, ds, r) := installLoop dl fonts w'
            ⟨if r.isSome then 1 else 0, w2, n + n2, ds, false, r⟩
    else
      let fonts := (argv.drop 1).filter
        (fun f => !isFontInstalled f (w.fonts.map Prod.fst))
      if fonts.isEmpty then ⟨0, w, 0, [], false, none⟩
      else
        let (w2, n2, ds, r) := installLoop dl fonts w
        ⟨if r.isSome then 1 else 0, w2, n2, ds, false, r⟩

end Dispatcher

section ResolverPredicates

/-- The invalid-feed category named by the specification: the feed
responded (no transport exception) with a non-200 status, an empty
(whitespace-only) body, or a body that is not valid JSON. -/
def claimInvalidResp : Except Unit Resp → Bool
  | .error _ => false
  | .ok r =>
    !(r.status_code == 200 && !(pyStrip r.text == "")) ||
      (match r.json with
       | .error _ => true
       | .ok _ => false)

/-- The `name` of one asset entry when the entry has the expected shape
(an object whose `name` value is a string), `none` otherwise. -/
def assetName : Json → Option String
  | .obj fields =>
    match lookupJson fields "name" with
    | some (.str s) => some s
    | _ => none
  | _ => none

/-- The well-formed-asset-list category named by the specification: a 200
response with a non-empty body parsing to a JSON object whose `assets`
value, when present, is an array of objects each carrying a string
`name` (when `assets` is absent the source's `.get` default makes the
feed behave as an empty, still well-formed, asset list). -/
def wellFormedResp : Except Unit Resp → Bool
  | .error _ => false
  | .ok r =>
    r.status_code == 200 && !(pyStrip r.text == "") &&
      (match r.json with
       | .ok (.obj fields) =>
         (match lookupJson fields "assets" with
          | none => true
          | some (.arr xs) => xs.all (fun a => (assetName a).isSome)
          | some _ => false)
       | _ => false)

/-- The package names a well-formed feed contributes: its asset names
ending in `".zip"`, transformed exactly as the source transforms them
(`.replace(".zip", "")`). -/
def zipFonts (rr : Except Unit Resp) : List String :=
  match rr with
  | .ok r =>
    match r.json with
    | .ok (.obj fields) =>
      match lookupJson fields "assets" with
      | some (.arr xs) =>
        ((xs.filterMap assetName).filter
          (fun s => pyEndsWith s ".zip")).map
          (fun s => pyReplaceS s ".zip" "")
      | _ => []
    | _ => []
  | .error _ => []

/-- What one feed adds to the accumulated font list: its `zipFonts` when
well formed, nothing otherwise. -/
def feedContrib (net : String → Except Unit Resp) (u : String) :
    List String :=
  if wellFormedResp (net u) then zipFonts (net u) else []

end ResolverPredicates


section RegistryTheorems

/-- C6: for every state of the registry file that is absent or whose
content fails to parse, `load_repositories` returns only the built-in
default feed URL (as the one-element JSON list the Python function
yields), leaves the registry file untouched, and raises no error to the
calling process. -/
theorem c6_load_repositories_default_on_missing_or_corrupt
    (fileSt : RegistryFile)
    (h : fileSt = RegistryFile.absent ∨ fileSt = RegistryFile.malformed) :
    loadRepositoriesFile fileSt =
      (.ok (Json.arr [Json.str defaultRepoUrl]), fileSt) := by
  rcases h with h | h <;> subst h <;> rfl

/-- Witness for C6 at the concrete absent-file state. -/
theorem c6_witness :
    (RegistryFile.absent = RegistryFile.absent ∨
      RegistryFile.absent = RegistryFile.malformed) ∧
    loadRepositoriesFile RegistryFile.absent =
      (.ok (Json.arr [Json.str defaultRepoUrl]), RegistryFile.absent) :=
  ⟨Or.inl rfl,
   c6_load_repositories_default_on_missing_or_corrupt RegistryFile.absent (Or.inl rfl)⟩

/-- C9: `add_repository` of a URL already in the registry is a no-op that
does not write the file, and consequently no sequence of
`add_repository` calls starting from a duplicate-free registry ever
produces a registry containing duplicate URLs. -/
theorem c9_add_repository_idempotent_nodup :
    (∀ (url : String) (repos : List String), url ∈ repos →
      addRepository url repos = (repos, false)) ∧
    (∀ (repos urls : List String), repos.Nodup →
      (urls.foldl (fun r u => (addRepository u r).1) repos).Nodup) := by
  constructor
  · intro url repos h
    simp [addRepository, h]
  · intro repos urls
    induction urls generalizing repos with
    | nil => intro h; simpa using h
    | cons u rest ih =>
      intro h
      simp only [List.foldl_cons]
      apply ih
      by_cases hu : u ∈ repos
      · simpa [addRepository, hu] using h
      · simp only [addRepository, if_neg hu]
        exact h.append (List.nodup_singleton u)
          (by simpa [List.disjoint_singleton] using hu)

/-- Witness for C9 at concrete inputs discharging both hypotheses. -/
theorem c9_witness :
    ("u" ∈ ["u"] ∧ addRepository "u" ["u"] = (["u"], false)) ∧
    (["a"].Nodup ∧
      (["b", "a"].foldl (fun r u => (addRepository u r).1) ["a"]).Nodup) :=
  ⟨⟨by decide, c9_add_repository_idempotent_nodup.1 "u" ["u"] (by decide)⟩,
   ⟨by decide, c9_add_repository_idempotent_nodup.2 ["a"] ["b", "a"] (by decide)⟩⟩

end RegistryTheorems

section GlobTheorems

theorem parseGlob_cons_ord (c : Char) (l : List Char)
    (h1 : c ≠ '*') (h2 : c ≠ '?') (h3 : c ≠ '[') :
    parseGlob (c :: l) = .lit c :: parseGlob l := by
  simp [parseGlob, parseGlobF, h1, h2, h3]

theorem parseGlob_lit_append (name r : List Char)
    (h : ∀ c ∈ name, c ≠ '*' ∧ c ≠ '?' ∧ c ≠ '[') :
    parseGlob (name ++ r) = name.map GlobTok.lit ++ parseGlob r := by
  induction name with
  | nil => simp
  | cons c name ih =>
    obtain ⟨h1, h2, h3⟩ := h c (List.mem_cons_self c name)
    rw [List.cons_append, parseGlob_cons_ord c _ h1 h2 h3,
      ih (fun d hd => h d (List.mem_cons_of_mem c hd))]
    simp

theorem globMatch_lit_prefix (name : List Char) (P : List GlobTok)
    (s : List Char) :
    globMatch (name.map GlobTok.lit ++ P) s = true ↔
      ∃ t, s = name ++ t ∧ globMatch P t = true := by
  induction name generalizing s with
  | nil => simp
  | cons c name ih =>
    cases s with
    | nil => simp [globMatch]
    | cons d s =>
      have hstep : globMatch ((c :: name).map GlobTok.lit ++ P) (d :: s) =
          (c == d && globMatch (name.map GlobTok.lit ++ P) s) := rfl
      rw [hstep, Bool.and_eq_true, beq_iff_eq, ih]
      constructor
      · rintro ⟨rfl, t, rfl, ht⟩
        exact ⟨t, rfl, ht⟩
      · rintro ⟨t, heq, ht⟩
        rw [List.cons_append] at heq
        injection heq with hd hs
        exact ⟨hd.symm, t, hs, ht⟩

theorem globMatch_star (p : List GlobTok) (s : List Char) :
    globMatch (.star :: p) s = true ↔
      ∃ t, t <:+ s ∧ globMatch p t = true := by
  simp [globMatch, List.any_eq_true, List.mem_tails]

theorem globMatch_fontTail (cs : List Char) (u : List Char) :
    globMatch [.lit '.', .cls cs, .lit 't', .lit 'f'] u = true ↔
      ∃ c, u = ['.', c, 't', 'f'] ∧ cs.contains c = true := by
  match u with
  | [] => simp [globMatch]
  | [a] => simp [globMatch]
  | [a, b] => simp [globMatch]
  | [a, b, c'] => simp [globMatch]
  | a :: b :: c' :: d :: rest =>
    simp only [globMatch, Bool.and_eq_true, beq_iff_eq, List.isEmpty_iff,
      List.cons.injEq]
    constructor
    · rintro ⟨rfl, hb, rfl, rfl, rfl⟩
      exact ⟨b, ⟨rfl, rfl, rfl, rfl, rfl⟩, hb⟩
    · rintro ⟨c, ⟨rfl, rfl, rfl, rfl, rfl⟩, hc⟩
      exact ⟨rfl, hc, rfl, rfl, rfl⟩

theorem fontPat_globMatch (fontName f : String)
    (h : ∀ c ∈ fontName.data, c ≠ '*' ∧ c ≠ '?' ∧ c ≠ '[') :
    globMatch (parseGlob (fontName ++ "*.[to]tf").data) f.data = true ↔
      (∃ mid : String, f = fontName ++ mid ++ ".ttf") ∨
      (∃ mid : String, f = fontName ++ mid ++ ".otf") := by
  have hdata : (fontName ++ "*.[to]tf").data =
      fontName.data ++ "*.[to]tf".data := String.data_append fontName _
  have htail : parseGlob "*.[to]tf".data =
      [.star, .lit '.', .cls ['t', 'o'], .lit 't', .lit 'f'] := by decide
  rw [hdata, parseGlob_lit_append fontName.data _ h, htail,
    globMatch_lit_prefix]
  constructor
  · rintro ⟨t, hft, hm⟩
    obtain ⟨u, hsuf, hu⟩ := (globMatch_star _ _).mp hm
    obtain ⟨c, rfl, hc⟩ := (globMatch_fontTail _ _).mp hu
    obtain ⟨mid, rfl⟩ := hsuf
    have hc' : c = 't' ∨ c = 'o' := by
      simpa [List.contains] using hc
    have hmk : f = String.mk f.data := rfl
    rcases hc' with rfl | rfl
    · refine Or.inl ⟨String.mk mid, ?_⟩
      apply String.ext
      simp [String.data_append, hft]
    · refine Or.inr ⟨String.mk mid, ?_⟩
      apply String.ext
      simp [String.data_append, hft]
  · rintro (⟨mid, rfl⟩ | ⟨mid, rfl⟩)
    · refine ⟨mid.data ++ ".ttf".data, by simp [String.data_append], ?_⟩
      rw [globMatch_star]
      exact ⟨['.', 't', 't', 'f'], ⟨mid.data, rfl⟩,
        (globMatch_fontTail _ _).mpr ⟨'t', rfl, by decide⟩⟩
    · refine ⟨mid.data ++ ".otf".data, by simp [String.data_append], ?_⟩
      rw [globMatch_star]
      exact ⟨['.', 'o', 't', 'f'], ⟨mid.data, rfl⟩,
        (globMatch_fontTail _ _).mpr ⟨'o', rfl, by decide⟩⟩

/-- C5: `is_font_installed(name)` is true iff at least one file of the
font directory matches `<name>*.ttf` or `<name>*.otf` (literal
case-sensitive prefix, arbitrary middle, one of the two extensions), and
false otherwise — in particular for an empty directory and for an absent
one (both are the empty file list, over which the right-hand side is
vacuously false).  The font name is assumed free of glob metacharacters,
which is also what the claim's reading of `<name>*.ttf` as a prefix
pattern presumes. -/
theorem c5_is_font_installed_iff (fontName : String) (files : List String)
    (h : ∀ c ∈ fontName.data, c ≠ '*' ∧ c ≠ '?' ∧ c ≠ '[') :
    isFontInstalled fontName files = true ↔
      ∃ f ∈ files,
        (∃ mid : String, f = fontName ++ mid ++ ".ttf") ∨
        (∃ mid : String, f = fontName ++ mid ++ ".otf") := by
  unfold isFontInstalled
  rw [List.any_eq_true]
  exact exists_congr fun f =>
    and_congr_right fun _ => fontPat_globMatch fontName f h

/-- Witness for C5: the name `Fira`, a directory holding `FiraCode.ttf`. -/
theorem c5_witness :
    (∀ c ∈ "Fira".data, c ≠ '*' ∧ c ≠ '?' ∧ c ≠ '[') ∧
    (isFontInstalled "Fira" ["FiraCode.ttf"] = true ↔
      ∃ f ∈ ["FiraCode.ttf"],
        (∃ mid : String, f = "Fira" ++ mid ++ ".ttf") ∨
        (∃ mid : String, f = "Fira" ++ mid ++ ".otf")) :=
  ⟨by decide, c5_is_font_installed_iff "Fira" ["FiraCode.ttf"] (by decide)⟩

end GlobTheorems

section InstallTheorems

theorem lookupFile_append_some (fonts : List (String × String))
    (nc : String × String) (f c : String)
    (h : lookupFile fonts f = some c) :
    lookupFile (fonts ++ [nc]) f = some c := by
  induction fonts with
  | nil => simp [lookupFile] at h
  | cons kv rest ih =>
    obtain ⟨k, v⟩ := kv
    simp only [List.cons_append, lookupFile] at h ⊢
    split at h
    · next hk => simp only [if_pos hk]; exact h
    · next hk => simp only [if_neg hk]; exact ih h

theorem moveFontEntries_preserves (entries fonts : List (String × String))
    (f c : String) (h : lookupFile fonts f = some c) :
    lookupFile (moveFontEntries entries fonts).1 f = some c := by
  induction entries generalizing fonts with
  | nil => simpa [moveFontEntries] using h
  | cons e rest ih =>
    obtain ⟨n, cc⟩ := e
    simp only [moveFontEntries]
    split
    · split
      · exact ih fonts h
      · exact ih (fonts ++ [(n, cc)]) (lookupFile_append_some fonts (n, cc) f c h)
    · exact ih fonts h

theorem installOnePath_preserves (fs : String → Option LocalFile)
    (p : String) (w : World) (f c : String)
    (h : lookupFile w.fonts f = some c) :
    lookupFile (installOnePath fs p w).1.fonts f = some c := by
  unfold installOnePath
  cases fs p with
  | none => exact h
  | some lf =>
    simp only
    split
    · split
      · exact h
      · exact lookupFile_append_some w.fonts _ f c h
    · split
      · split
        · exact h
        · exact moveFontEntries_preserves _ _ f c h
      · exact h

theorem installFold_preserves (fs : String → Option LocalFile)
    (paths : List String) (f c : String) :
    ∀ acc : World × List LocalOutcome, lookupFile acc.1.fonts f = some c →
      lookupFile (paths.foldl
        (fun acc p =>
          let (w', os) := installOnePath fs p acc.1
          (w', acc.2 ++ os)) acc).1.fonts f = some c := by
  induction paths with
  | nil => intro acc h; exact h
  | cons p rest ih =>
    intro acc h
    rw [List.foldl_cons]
    exact ih _ (installOnePath_preserves fs p acc.1 f c h)

/-- C7: during a network install and during a local install alike, a font
file whose destination name already exists in the font directory is
skipped without being overwritten: the existing destination keeps its
content on every path of both installers (and the skip itself raises
nothing — the only error a network install can raise is the uncaught
`BadZipFile` of a corrupt archive, which is independent of destination
files; the local installer catches even that). -/
theorem c7_existing_destination_preserved
    (dl : String → DlResp) (fontName : String)
    (fs : String → Option LocalFile) (paths : List String)
    (w : World) (f c : String) (h : lookupFile w.fonts f = some c) :
    lookupFile (downloadAndInstallFont dl fontName w).2.1.fonts f = some c ∧
    lookupFile (installFontFileOrZip fs paths w).1.fonts f = some c := by
  constructor
  · unfold downloadAndInstallFont
    split
    · exact h
    · simp only
      split
      · split
        · exact h
        · exact moveFontEntries_preserves _ _ f c h
      · exact h
  · exact installFold_preserves fs paths f c (w, []) h

/-- Witness for C7: a font directory already holding `A.ttf`, a download
whose archive carries a new `A.ttf`, and a local install of a ZIP with the
same collision. -/
theorem c7_witness :
    lookupFile [("A.ttf", "orig")] "A.ttf" = some "orig" ∧
    (lookupFile (downloadAndInstallFont (fun _ => ⟨200, .ok [("A.ttf", "new")]⟩)
        "B" ⟨[], [("A.ttf", "orig")], false⟩).2.1.fonts "A.ttf" = some "orig" ∧
     lookupFile (installFontFileOrZip (fun _ => some ⟨"", .ok [("A.ttf", "new")]⟩)
        ["F.zip"] ⟨[], [("A.ttf", "orig")], false⟩).1.fonts "A.ttf" = some "orig") :=
  ⟨by decide,
   c7_existing_destination_preserved (fun _ => ⟨200, .ok [("A.ttf", "new")]⟩) "B"
     (fun _ => some ⟨"", .ok [("A.ttf", "new")]⟩) ["F.zip"]
     ⟨[], [("A.ttf", "orig")], false⟩ "A.ttf" "orig" (by decide)⟩

/-- C1 (code-bug evidence): requesting a package whose download answers
HTTP 404 drives `download_and_install_font` into its `else` branch, which
prints the failure message and returns without any cleanup — the
temporary directory created before the download still exists when the
operation returns, contradicting the claim that every exit path removes
it. -/
theorem c1_temp_dir_leak_on_download_failure :
    (downloadAndInstallFont (fun _ => ⟨404, .error ()⟩) "FiraCode"
        ⟨[defaultRepoUrl], [], false⟩).1 = .ok .downloadFailed ∧
    (downloadAndInstallFont (fun _ => ⟨404, .error ()⟩) "FiraCode"
        ⟨[defaultRepoUrl], [], false⟩).2.1.tempExists = true :=
  ⟨rfl, rfl⟩

/-- C4 (code-bug evidence): an archive that downloads and extracts fine
but contains no `.ttf`/`.otf` file leaves the font directory unchanged in
both installers, but `download_and_install_font` computes its `installed`
flag without ever consulting it and finishes by printing the success
message (`DlOutcome.installedMsg`) instead of reporting the absence of
valid files; only `install_font_file_or_zip` prints the
no-valid-font-files report. -/
theorem c4_no_valid_files_not_reported :
    ((downloadAndInstallFont (fun _ => ⟨200, .ok [("readme.txt", "r")]⟩)
        "FiraCode" ⟨[], [("Other.ttf", "o")], false⟩).1 = .ok .installedMsg ∧
     (downloadAndInstallFont (fun _ => ⟨200, .ok [("readme.txt", "r")]⟩)
        "FiraCode" ⟨[], [("Other.ttf", "o")], false⟩).2.1.fonts =
      [("Other.ttf", "o")]) ∧
    (installFontFileOrZip (fun _ => some ⟨"", .ok [("readme.txt", "r")]⟩)
        ["Fonts.zip"] ⟨[], [("Other.ttf", "o")], false⟩).2 =
      [.zipNoValidFiles] :=
  ⟨⟨rfl, rfl⟩, rfl⟩

end InstallTheorems

section ResolverTheorems

theorem wellFormed_false_of_netErr (rr : Except Unit Resp)
    (h : isNetErr rr = true) : wellFormedResp rr = false := by
  cases rr with
  | error e => rfl
  | ok r => simp [isNetErr] at h

theorem wellFormed_false_of_claimInvalid (rr : Except Unit Resp)
    (h : claimInvalidResp rr = true) : wellFormedResp rr = false := by
  cases rr with
  | error e => rfl
  | ok r =>
    simp only [claimInvalidResp, Bool.or_eq_true] at h
    simp only [wellFormedResp]
    rcases h with h | h
    · rw [Bool.not_eq_true'] at h
      rw [h, Bool.false_and]
    · cases hj : r.json with
      | error e => simp
      | ok v => rw [hj] at h; simp at h

theorem pySubscript_of_assetName (a : Json) (s : String)
    (h : assetName a = some s) : pySubscript a "name" = .ok (Json.str s) := by
  cases a with
  | obj fields =>
    simp only [assetName] at h
    simp only [pySubscript]
    cases hlk : lookupJson fields "name" with
    | none => rw [hlk] at h; cases h
    | some v =>
      rw [hlk] at h
      cases v <;> simp at h
      rw [h]
  | null => simp [assetName] at h
  | bool b => simp [assetName] at h
  | num n => simp [assetName] at h
  | str s' => simp [assetName] at h
  | arr xs => simp [assetName] at h

theorem namesLoop_wf (xs : List Json)
    (h : xs.all (fun a => (assetName a).isSome) = true) :
    namesLoop xs = .ok (((xs.filterMap assetName).filter
      (fun s => pyEndsWith s ".zip")).map
      (fun s => pyReplaceS s ".zip" "")) := by
  induction xs with
  | nil => rfl
  | cons a rest ih =>
    rw [List.all_cons, Bool.and_eq_true] at h
    obtain ⟨ha, hrest⟩ := h
    obtain ⟨s, hs⟩ := Option.isSome_iff_exists.mp ha
    rw [namesLoop, pySubscript_of_assetName a s hs, ih hrest]
    simp only [List.filterMap_cons, hs, List.filter_cons, List.map_cons]
    by_cases hz : pyEndsWith s ".zip" = true
    · simp [hz]
    · simp [hz, Bool.of_not_eq_true hz]

theorem fetchRepo_wf (net : String → Except Unit Resp) (u : String)
    (h : wellFormedResp (net u) = true) :
    fetchRepo net u = .ok (zipFonts (net u), false) := by
  cases hnet : net u with
  | error e => rw [hnet] at h; cases h
  | ok r =>
    rw [hnet] at h
    simp only [wellFormedResp, Bool.and_eq_true] at h
    obtain ⟨⟨hst, htxt⟩, hshape⟩ := h
    simp only [fetchRepo, hnet, hst, htxt, Bool.and_self, if_pos]
    cases hj : r.json with
    | error e => rw [hj] at hshape; simp at hshape
    | ok v =>
      rw [hj] at hshape
      cases v with
      | obj fields =>
        have hshape' : (match lookupJson fields "assets" with
            | none => true
            | some (.arr xs) => xs.all (fun a => (assetName a).isSome)
            | some _ => false) = true := hshape
        simp only [fontsFromJson, zipFonts, hnet, hj]
        cases hlk : lookupJson fields "assets" with
        | none => rfl
        | some av =>
          rw [hlk] at hshape'
          cases av with
          | arr xs =>
            have hall : xs.all (fun a => (assetName a).isSome) = true := hshape'
            show (match namesLoop xs with
              | Except.error e => Except.error e
              | Except.ok fonts => Except.ok (fonts, false)) = _
            rw [namesLoop_wf xs hall]
          | null => simp at hshape'
          | bool b => simp at hshape'
          | num n => simp at hshape'
          | str s => simp at hshape'
          | obj fs => simp at hshape'
      | null => simp at hshape
      | bool b => simp at hshape
      | num n => simp at hshape
      | str s => simp at hshape
      | arr xs => simp at hshape

theorem fetchRepo_bad (net : String → Except Unit Resp) (u : String)
    (h : isNetErr (net u) = true ∨ claimInvalidResp (net u) = true) :
    fetchRepo net u = .ok ([], true) := by
  cases hnet : net u with
  | error e => simp [fetchRepo, hnet]
  | ok r =>
    rcases h with h | h
    · rw [hnet] at h; simp [isNetErr] at h
    · rw [hnet] at h
      simp only [claimInvalidResp, Bool.or_eq_true] at h
      simp only [fetchRepo, hnet]
      rcases h with h | h
      · rw [Bool.not_eq_true'] at h
        rw [h]
        rfl
      · cases hj : r.json with
        | error e => split <;> rfl
        | ok v => rw [hj] at h; simp at h

theorem resolveLoop_char (net : String → Except Unit Resp)
    (repos : List String)
    (hall : ∀ u ∈ repos, isNetErr (net u) = true ∨
      claimInvalidResp (net u) = true ∨ wellFormedResp (net u) = true) :
    resolveLoop net repos =
      (.ok ((repos.map (feedContrib net)).flatten,
            repos.filter (fun u => !wellFormedResp (net u))),
       repos.length) := by
  induction repos with
  | nil => rfl
  | cons u rest ih =>
    have hu := hall u (List.mem_cons_self u rest)
    have hrest := ih (fun v hv => hall v (List.mem_cons_of_mem u hv))
    simp only [resolveLoop, hrest]
    rcases hu with hu | hu | hu
    · have hwf := wellFormed_false_of_netErr _ hu
      rw [fetchRepo_bad net u (Or.inl hu)]
      simp [feedContrib, hwf]
    · have hwf := wellFormed_false_of_claimInvalid _ hu
      rw [fetchRepo_bad net u (Or.inr hu)]
      simp [feedContrib, hwf]
    · rw [fetchRepo_wf net u hu]
      simp [feedContrib, hu]

end ResolverTheorems

section RegistryPruneTheorems

theorem removeRepository_fst (u : String) (R : List String) :
    (removeRepository u R).1 = R.erase u := by
  unfold removeRepository
  split
  · rfl
  · next h => rw [List.erase_of_not_mem h]

theorem count_foldl_remove (S : List String) (R : List String) (x : String) :
    (S.foldl (fun reg u => (removeRepository u reg).1) R).count x =
      R.count x - S.count x := by
  induction S generalizing R with
  | nil => simp
  | cons u S ih =>
    rw [List.foldl_cons, removeRepository_fst, ih, List.count_erase,
      List.count_cons]
    by_cases hux : (u == x) = true
    · simp only [hux, if_true]
      omega
    · simp only [hux, if_false]
      omega

theorem getAllNerdFonts_registry_char (net : String → Except Unit Resp)
    (w : World)
    (hall : ∀ u ∈ w.registry, isNetErr (net u) = true ∨
      claimInvalidResp (net u) = true ∨ wellFormedResp (net u) = true) :
    (getAllNerdFonts net w).2.1.registry =
      (w.registry.filter (fun u => !wellFormedResp (net u))).foldl
        (fun reg u => (removeRepository u reg).1) w.registry := by
  unfold getAllNerdFonts
  rw [resolveLoop_char net w.registry hall]

theorem getAllNerdFonts_fonts_char (net : String → Except Unit Resp)
    (w : World)
    (hall : ∀ u ∈ w.registry, isNetErr (net u) = true ∨
      claimInvalidResp (net u) = true ∨ wellFormedResp (net u) = true) :
    (getAllNerdFonts net w).1 =
      .ok ((w.registry.map (feedContrib net)).flatten).dedup := by
  unfold getAllNerdFonts
  rw [resolveLoop_char net w.registry hall]

/-- C2: after one completed resolution call, every registered feed that
responded with a non-200 status, an empty body or malformed JSON has been
removed from the persisted registry, and every registered feed that
returned a well-formed asset list is still present.  The hypothesis
restricts every response to the categories the claim classifies (a
transport exception, also pruned by the code, is allowed as well); a
response outside them (e.g. valid JSON that is not an object) makes the
code raise before any pruning, so no completed resolution arises from
it. -/
theorem c2_invalid_feeds_pruned_valid_kept
    (net : String → Except Unit Resp) (w : World)
    (hall : ∀ u ∈ w.registry, isNetErr (net u) = true ∨
      claimInvalidResp (net u) = true ∨ wellFormedResp (net u) = true) :
    (∃ fonts, (getAllNerdFonts net w).1 = .ok fonts) ∧
    ∀ u ∈ w.registry,
      (claimInvalidResp (net u) = true →
        u ∉ (getAllNerdFonts net w).2.1.registry) ∧
      (wellFormedResp (net u) = true →
        u ∈ (getAllNerdFonts net w).2.1.registry) := by
  refine ⟨⟨_, getAllNerdFonts_fonts_char net w hall⟩, ?_⟩
  intro u hu
  rw [getAllNerdFonts_registry_char net w hall]
  have hcount := count_foldl_remove
    (w.registry.filter (fun v => !wellFormedResp (net v))) w.registry u
  constructor
  · intro hinv
    have hwf := wellFormed_false_of_claimInvalid _ hinv
    have hfc : (w.registry.filter
        (fun v => !wellFormedResp (net v))).count u = w.registry.count u :=
      List.count_filter (by simp [hwf])
    intro hmem
    have hpos := List.count_pos_iff.mpr hmem
    omega
  · intro hwf
    have hfc : (w.registry.filter
        (fun v => !wellFormedResp (net v))).count u = 0 := by
      rw [List.count_eq_zero]
      intro hmem
      rw [List.mem_filter, hwf] at hmem
      simp at hmem
    have hpos := List.count_pos_iff.mpr hu
    rw [← List.count_pos_iff]
    omega

/-- A two-feed network for the C2 witness: `good` answers with one
well-formed asset, `bad` answers HTTP 500 with a malformed body. -/
def c2net : String → Except Unit Resp := fun u =>
  if u == "good" then
    .ok ⟨200, "body", .ok (Json.obj [("assets", Json.arr
      [Json.obj [("name", Json.str "FiraCode.zip")]])])⟩
  else
    .ok ⟨500, "oops", .error ()⟩

/-- Witness for C2 at the concrete two-feed registry. -/
theorem c2_witness :
    (∀ u ∈ ["good", "bad"], isNetErr (c2net u) = true ∨
      claimInvalidResp (c2net u) = true ∨ wellFormedResp (c2net u) = true) ∧
    ((∃ fonts,
        (getAllNerdFonts c2net ⟨["good", "bad"], [], false⟩).1 = .ok fonts) ∧
      ∀ u ∈ (⟨["good", "bad"], [], false⟩ : World).registry,
        (claimInvalidResp (c2net u) = true →
          u ∉ (getAllNerdFonts c2net ⟨["good", "bad"], [], false⟩).2.1.registry) ∧
        (wellFormedResp (c2net u) = true →
          u ∈ (getAllNerdFonts c2net ⟨["good", "bad"], [], false⟩).2.1.registry)) :=
  ⟨by decide,
   c2_invalid_feeds_pruned_valid_kept c2net ⟨["good", "bad"], [], false⟩
     (by decide)⟩

end RegistryPruneTheorems

section ResolvedSetTheorems

theorem mem_fonts_iff (net : String → Except Unit Resp)
    (repos : List String) (a : String) :
    a ∈ ((repos.map (feedContrib net)).flatten).dedup ↔
      ∃ u ∈ repos, wellFormedResp (net u) = true ∧ a ∈ zipFonts (net u) := by
  rw [List.mem_dedup, List.mem_flatten]
  constructor
  · rintro ⟨l, hl, hal⟩
    rw [List.mem_map] at hl
    obtain ⟨u, hu, rfl⟩ := hl
    unfold feedContrib at hal
    split at hal
    · next hwf => exact ⟨u, hu, hwf, hal⟩
    · simp at hal
  · rintro ⟨u, hu, hwf, ha⟩
    exact ⟨feedContrib net u, List.mem_map_of_mem _ hu,
      by simp [feedContrib, hwf, ha]⟩

/-- C3, amended: the source transforms an asset name with
`name.replace(".zip", "")`, which removes every occurrence of the
substring `".zip"`, not only the trailing suffix (the two differ exactly
on names containing `".zip"` in the middle).  With that transformation in
place of suffix-stripping the claim holds: when every feed falls in the
claim's response categories and at least one is well formed, the
resolution call returns the union over well-formed feeds of their
transformed `.zip` asset names, without duplicates, and the set is the
same for every ordering of the registered feed URLs. -/
theorem c3_resolved_set_union_replace
    (net : String → Except Unit Resp) (w : World)
    (hall : ∀ u ∈ w.registry, isNetErr (net u) = true ∨
      claimInvalidResp (net u) = true ∨ wellFormedResp (net u) = true)
    (_hex : ∃ u ∈ w.registry, wellFormedResp (net u) = true) :
    ∃ fonts : List String,
      (getAllNerdFonts net w).1 = .ok fonts ∧
      fonts.Nodup ∧
      fonts.toFinset =
        (w.registry.toFinset.filter
          (fun u => wellFormedResp (net u) = true)).biUnion
          (fun u => (zipFonts (net u)).toFinset) ∧
      (∀ repos2 : List String, repos2.Perm w.registry →
        ∃ fonts2 : List String,
          (getAllNerdFonts net { w with registry := repos2 }).1 =
            .ok fonts2 ∧
          fonts2.toFinset = fonts.toFinset) := by
  refine ⟨_, getAllNerdFonts_fonts_char net w hall,
    List.nodup_dedup _, ?_, ?_⟩
  · ext a
    simp only [List.mem_toFinset, Finset.mem_biUnion, Finset.mem_filter,
      List.mem_toFinset]
    rw [mem_fonts_iff]
    constructor
    · rintro ⟨u, hu, hwf, ha⟩
      exact ⟨u, ⟨hu, hwf⟩, ha⟩
    · rintro ⟨u, ⟨hu, hwf⟩, ha⟩
      exact ⟨u, hu, hwf, ha⟩
  · intro repos2 hperm
    have hall2 : ∀ u ∈ repos2, isNetErr (net u) = true ∨
        claimInvalidResp (net u) = true ∨ wellFormedResp (net u) = true :=
      fun u hu => hall u (hperm.mem_iff.mp hu)
    refine ⟨_,
      getAllNerdFonts_fonts_char net { w with registry := repos2 } hall2, ?_⟩
    ext a
    rw [List.mem_toFinset, List.mem_toFinset, mem_fonts_iff, mem_fonts_iff]
    constructor
    · rintro ⟨u, hu, h1, h2⟩
      exact ⟨u, hperm.mem_iff.mp hu, h1, h2⟩
    · rintro ⟨u, hu, h1, h2⟩
      exact ⟨u, hperm.mem_iff.mpr hu, h1, h2⟩

/-- A one-feed network whose single asset name contains `".zip"` also in
the middle, separating `str.replace` from suffix-stripping. -/
def c3net : String → Except Unit Resp := fun _ =>
  .ok ⟨200, "body", .ok (Json.obj [("assets", Json.arr
    [Json.obj [("name", Json.str "a.zip.zip")]])])⟩

/-- C3 counterexample: for the asset name `a.zip.zip` (which ends in the
archive suffix), the claim demands the resolved set
`{ "a.zip" }` — the name with that suffix stripped — but the code's
`replace(".zip", "")` yields `{ "a" }`, so the resolved set as claimed is
wrong at this input. -/
theorem c3_counterexample_suffix_strip :
    (getAllNerdFonts c3net ⟨["u"], [], false⟩).1 = .ok ["a"] ∧
    pyEndsWith "a.zip.zip" ".zip" = true ∧
    stripSuffixOnce "a.zip.zip" ".zip" = "a.zip" ∧
    ("a.zip" : String) ∉ (["a"] : List String) :=
  ⟨rfl, by decide, by decide, by decide⟩

/-- A two-feed network for the C3 witness: `good` advertises
`FiraCode.zip` and `readme.txt`, `down` raises a transport error. -/
def c3netW : String → Except Unit Resp := fun u =>
  if u == "good" then
    .ok ⟨200, "body", .ok (Json.obj [("assets", Json.arr
      [Json.obj [("name", Json.str "FiraCode.zip")],
       Json.obj [("name", Json.str "readme.txt")]])])⟩
  else .error ()

/-- Witness for C3 (amended) at the concrete two-feed registry. -/
theorem c3_witness :
    (∀ u ∈ ["good", "down"], isNetErr (c3netW u) = true ∨
      claimInvalidResp (c3netW u) = true ∨
      wellFormedResp (c3netW u) = true) ∧
    (∃ u ∈ ["good", "down"], wellFormedResp (c3netW u) = true) ∧
    (∃ fonts : List String,
      (getAllNerdFonts c3netW ⟨["good", "down"], [], false⟩).1 = .ok fonts ∧
      fonts.Nodup ∧
      fonts.toFinset =
        ((["good", "down"] : List String).toFinset.filter
          (fun u => wellFormedResp (c3netW u) = true)).biUnion
          (fun u => (zipFonts (c3netW u)).toFinset) ∧
      (∀ repos2 : List String, repos2.Perm ["good", "down"] →
        ∃ fonts2 : List String,
          (getAllNerdFonts c3netW ⟨repos2, [], false⟩).1 = .ok fonts2 ∧
          fonts2.toFinset = fonts.toFinset)) :=
  ⟨by decide, by decide,
   c3_resolved_set_union_replace c3netW ⟨["good", "down"], [], false⟩
     (by decide) (by decide)⟩

end ResolvedSetTheorems

section DispatcherTheorems

/-- C8: invoked as `gnfnt *`, any confirmation whose lowercase form is not
`y` aborts before any network activity — no `requests.get` happens, no
download is attempted, the world is untouched and the process exits 0;
invoked with no arguments at all, the program prints the usage banner and
exits 1. -/
theorem c8_dispatch_refusal_and_usage :
    (∀ (stdin : String) (net : String → Except Unit Resp)
        (dl : String → DlResp) (fs : String → Option LocalFile) (w : World),
      pyLower stdin ≠ "y" →
      mainModel ["gnfnt", "*"] stdin net dl fs w =
        ⟨0, w, 0, [], false, none⟩) ∧
    (∀ (stdin : String) (net : String → Except Unit Resp)
        (dl : String → DlResp) (fs : String → Option LocalFile) (w : World),
      mainModel ["gnfnt"] stdin net dl fs w = ⟨1, w, 0, [], true, none⟩) := by
  constructor
  · intro stdin net dl fs w h
    have hb : (pyLower stdin == "y") = false := by
      rw [beq_eq_false_iff_ne]
      exact h
    unfold mainModel
    rw [hb]
    rfl
  · intro stdin net dl fs w
    rfl

/-- Witness for C8: confirmation `n`, empty world, inert collaborators. -/
theorem c8_witness :
    pyLower "n" ≠ "y" ∧
    mainModel ["gnfnt", "*"] "n" (fun _ => .error ())
      (fun _ => ⟨404, .error ()⟩) (fun _ => none) ⟨[], [], false⟩ =
      ⟨0, ⟨[], [], false⟩, 0, [], false, none⟩ ∧
    mainModel ["gnfnt"] "n" (fun _ => .error ())
      (fun _ => ⟨404, .error ()⟩) (fun _ => none) ⟨[], [], false⟩ =
      ⟨1, ⟨[], [], false⟩, 0, [], true, none⟩ :=
  ⟨by decide,
   c8_dispatch_refusal_and_usage.1 "n" (fun _ => .error ())
     (fun _ => ⟨404, .error ()⟩) (fun _ => none) ⟨[], [], false⟩ (by decide),
   c8_dispatch_refusal_and_usage.2 "n" (fun _ => .error ())
     (fun _ => ⟨404, .error ()⟩) (fun _ => none) ⟨[], [], false⟩⟩

theorem downloadAndInstallFont_netCalls (dl : String → DlResp)
    (fn : String) (w : World)
    (h : isFontInstalled fn (w.fonts.map Prod.fst) = false) :
    (downloadAndInstallFont dl fn w).2.2 = 1 := by
  unfold downloadAndInstallFont
  rw [h]
  simp only [Bool.false_eq_true, if_false]
  split
  · split <;> rfl
  · rfl

theorem installLoop_single (dl : String → DlResp) (f : String) (w : World)
    (hni : isFontInstalled f (w.fonts.map Prod.fst) = false) :
    (installLoop dl [f] w).2.1 = 1 ∧ (installLoop dl [f] w).2.2.1 = [f] := by
  unfold installLoop
  rcases hres : downloadAndInstallFont dl f w with ⟨res, w', n⟩
  have hn : n = 1 := by
    have h1 := downloadAndInstallFont_netCalls dl f w hni
    rw [hres] at h1
    exact h1
  cases res with
  | error e => simp [hn]
  | ok o => simp [installLoop, hn]

theorem mainModel_fallthrough_single (arg stdin : String)
    (net : String → Except Unit Resp) (dl : String → DlResp)
    (fs : String → Option LocalFile) (w : World)
    (h1 : (arg == "-h") = false) (h2 : (arg == "--help") = false)
    (h3 : (arg == "-v") = false) (h4 : (arg == "--version") = false)
    (h5 : (arg == "-l") = false) (h6 : (arg == "--list") = false)
    (h7 : (arg == "--repos") = false) (h8 : (arg == "*") = false)
    (hni : isFontInstalled arg (w.fonts.map Prod.fst) = false) :
    mainModel ["gnfnt", arg] stdin net dl fs w =
      ⟨if (installLoop dl [arg] w).2.2.2.isSome then 1 else 0,
       (installLoop dl [arg] w).1, (installLoop dl [arg] w).2.1,
       (installLoop dl [arg] w).2.2.1, false,
       (installLoop dl [arg] w).2.2.2⟩ := by
  unfold mainModel
  rw [show ((["gnfnt", arg] : List String).getD 1 "") = arg from rfl]
  simp only [h1, h2, h3, h4, h5, h6, h7, h8]
  simp only [List.length_cons, List.length_nil, List.drop_succ_cons,
    List.drop_zero, List.filter_cons, List.filter_nil, hni, Bool.not_false,
    Bool.or_self, Bool.and_false, Bool.false_eq_true, if_false, if_true,
    List.isEmpty_cons, List.isEmpty_nil]
  norm_num

/-- C10: a first argument of `-a`, `-r` or `-f` with nothing after it
matches none of the option branches (their `len(sys.argv) > 2` guard
fails), so no usage error is reported; control falls through to the
install path, where the flag string itself — assumed not installed, which
a flag-named font never is — is passed to `download_and_install_font`,
costing exactly one download request. -/
theorem c10_flag_without_argument_treated_as_font
    (flag stdin : String) (net : String → Except Unit Resp)
    (dl : String → DlResp) (fs : String → Option LocalFile) (w : World)
    (hflag : flag = "-a" ∨ flag = "-r" ∨ flag = "-f")
    (hni : isFontInstalled flag (w.fonts.map Prod.fst) = false) :
    (mainModel ["gnfnt", flag] stdin net dl fs w).usageShown = false ∧
    (mainModel ["gnfnt", flag] stdin net dl fs w).downloads = [flag] ∧
    (mainModel ["gnfnt", flag] stdin net dl fs w).netCalls = 1 := by
  rcases hflag with rfl | rfl | rfl <;>
  · rw [mainModel_fallthrough_single _ stdin net dl fs w (by decide)
      (by decide) (by decide) (by decide) (by decide) (by decide)
      (by decide) (by decide) hni]
    obtain ⟨hn, hd⟩ := installLoop_single dl _ w hni
    exact ⟨rfl, hd, hn⟩

/-- Witness for C10: a bare `-a` with an empty font directory and a
download that answers 404. -/
theorem c10_witness :
    (("-a" : String) = "-a" ∨ ("-a" : String) = "-r" ∨
      ("-a" : String) = "-f") ∧
    isFontInstalled "-a" (([] : List (String × String)).map Prod.fst) =
      false ∧
    ((mainModel ["gnfnt", "-a"] "" (fun _ => .error ())
        (fun _ => ⟨404, .error ()⟩) (fun _ => none)
        ⟨[], [], false⟩).usageShown = false ∧
     (mainModel ["gnfnt", "-a"] "" (fun _ => .error ())
        (fun _ => ⟨404, .error ()⟩) (fun _ => none)
        ⟨[], [], false⟩).downloads = ["-a"] ∧
     (mainModel ["gnfnt", "-a"] "" (fun _ => .error ())
        (fun _ => ⟨404, .error ()⟩) (fun _ => none)
        ⟨[], [], false⟩).netCalls = 1) :=
  ⟨Or.inl rfl, by decide,
   c10_flag_without_argument_treated_as_font "-a" "" (fun _ => .error ())
     (fun _ => ⟨404, .error ()⟩) (fun _ => none) ⟨[], [], false⟩
     (Or.inl rfl) (by decide)⟩

end DispatcherTheorems
